import Mathlib

/-!
Verification of the cryptocurrency deposit intake subsystem of sonotxt-rust.

The development shallowly embeds the storage-facing payment services of the
repository: `credit_deposit` (src/services/payments/mod.rs), the AssetHub and
Penumbra listeners' address registry and deposit recording
(src/services/payments/assethub.rs, src/services/payments/penumbra.rs), the
seed manager's validation (src/services/seed_manager.rs) and the wallet
derivation entry points (src/services/wallet.rs).

The Postgres store is modelled as four in-memory tables (lists of rows) and
every SQL statement of the source as a pure function on that state.  Row ids
(`Uuid`) are opaque and modelled as `Nat`; `Uuid::new_v4()` calls become
explicit `fresh_id` parameters.  Monetary amounts (`f64` in the source, used
only for exact additions in every claim considered here) are modelled as `ℚ`.
Timestamps (`NOW()`, `created_at`) are `Nat` seconds passed explicitly.
A fallible storage statement either succeeds (total functions on the state) or
fails at an injected failure point; a sqlx transaction that fails before its
`commit` is rolled back by the database, so a failed `credit_deposit`
transaction leaves the visible state unchanged, while the listener operations
that run statement-by-statement on the pool keep the writes already executed.
-/

namespace Sonotxt

/-- Status column of the `deposits` table. -/
inductive DepositStatus
  | pending
  | confirmed
  | credited
deriving DecidableEq

/-- Position of a status in the forward lifecycle order
`pending → confirmed → credited`. -/
def DepositStatus.rank : DepositStatus → Nat
  | .pending => 0
  | .confirmed => 1
  | .credited => 2

/-- One row of the `deposits` table.  Columns not touched by any embedded
statement (`block_number`, `from_address`) are elided. -/
structure DepositRow where
  id : Nat
  account_id : Nat
  chain : String
  tx_hash : String
  asset : String
  amount : ℚ
  status : DepositStatus
  confirmations : Nat
  created_at : Nat
  credited_at : Option Nat
  to_address : Option String
deriving DecidableEq

/-- One row of the `transactions` table (the append-only ledger). -/
structure TransactionRow where
  account_id : Nat
  amount : ℚ
  kind : String
  description : String
  chain : Option String
  tx_hash : Option String
  deposit_id : Option Nat
deriving DecidableEq

/-- One row of the `account_credits` table (`updated_at` elided: no claim
mentions it). -/
structure CreditRow where
  account_id : Nat
  balance : ℚ
deriving DecidableEq

/-- One row of the `payment_addresses` table. -/
structure AddressRow where
  account_id : Nat
  chain : String
  address : String
  derivation_index : Int
  penumbra_index : Option Int
  is_active : Bool
deriving DecidableEq

/-- The relational store: the four tables the payment subsystem touches. -/
structure DB where
  payment_addresses : List AddressRow
  deposits : List DepositRow
  transactions : List TransactionRow
  account_credits : List CreditRow
deriving DecidableEq

/-- The error type of src/error.rs restricted to the two variants the payment
services construct. -/
inductive ApiError
  | Internal (msg : String)
  | InvalidRequest (msg : String)
deriving DecidableEq

/-- Message carried by an error (`Display` on `ApiError`). -/
def ApiError.render : ApiError → String
  | .Internal m => m
  | .InvalidRequest m => m

/-! ## credit_deposit (src/services/payments/mod.rs lines 11-76)

The function runs three statements inside one sqlx transaction:
update the deposit row to `credited`, add the amount to the account balance,
append one ledger row.  `TxFailure` names a point at which a storage error can
interrupt it; Postgres rolls the whole transaction back in that case, so the
visible state after a failure is the state before the call. -/

/-- A possible failure point inside the `credit_deposit` transaction. -/
inductive TxFailure
  | atBegin
  | atUpdateDeposit
  | atUpdateBalance
  | atInsertLedger
  | atCommit
deriving DecidableEq

/-- Statement 1: `UPDATE deposits SET status = 'credited', credited_at = NOW()
WHERE id = $1`. -/
def markDepositCredited (db : DB) (deposit_id : Nat) (now : Nat) : DB :=
  { db with deposits := db.deposits.map fun d =>
      if d.id = deposit_id then { d with status := .credited, credited_at := some now } else d }

/-- Statement 2: `UPDATE account_credits SET balance = balance + $1
WHERE account_id = $2`. -/
def addBalance (db : DB) (account_id : Nat) (amount : ℚ) : DB :=
  { db with account_credits := db.account_credits.map fun c =>
      if c.account_id = account_id then { c with balance := c.balance + amount } else c }

/-- Statement 3: `INSERT INTO transactions (account_id, amount, type,
description, chain, tx_hash, deposit_id) VALUES ($1, $2, 'purchase', $3, $4,
$5, $6)` with description `format!("deposit {} via {}", amount, chain)`. -/
def insertLedgerEntry (db : DB) (account_id : Nat) (amount : ℚ)
    (chain tx_hash : String) (deposit_id : Nat) : DB :=
  { db with transactions := db.transactions ++
      [{ account_id := account_id, amount := amount, kind := "purchase",
         description := "deposit " ++ toString amount ++ " via " ++ chain,
         chain := some chain, tx_hash := some tx_hash, deposit_id := some deposit_id }] }

/-- Shallow embedding of `credit_deposit`.  The source begins a transaction,
runs the three statements above, and commits; each `?` early-returns an
`ApiError::Internal`, dropping (hence rolling back) the transaction, so every
failure leaves the database unchanged.  `fail` injects at most one storage
failure.  Note the source checks neither the deposit's current status nor
whether the `tx_hash` was already credited. -/
def credit_deposit (fail : Option TxFailure) (db : DB) (deposit_id account_id : Nat)
    (amount : ℚ) (chain tx_hash : String) (now : Nat) : Except ApiError Unit × DB :=
  if fail = some .atBegin then (.error (.Internal "begin failed"), db) else
  if fail = some .atUpdateDeposit then (.error (.Internal "update deposits failed"), db) else
  let tx1 := markDepositCredited db deposit_id now
  if fail = some .atUpdateBalance then (.error (.Internal "update account_credits failed"), db) else
  let tx2 := addBalance tx1 account_id amount
  if fail = some .atInsertLedger then (.error (.Internal "insert transactions failed"), db) else
  let tx3 := insertLedgerEntry tx2 account_id amount chain tx_hash deposit_id
  if fail = some .atCommit then (.error (.Internal "commit failed"), db) else
  (.ok (), tx3)

/-! ## Manual deposit recording

`AssetHubListener::record_deposit` (assethub.rs lines 351-386) and
`PenumbraListener::record_deposit` (penumbra.rs lines 310-344): an existence
check on `tx_hash` followed by an insert of a `pending` row.  `Uuid::new_v4()`
is the `fresh_id` parameter; the inserted row takes the table defaults for the
columns the statement omits (`confirmations = 0`, `created_at = NOW()`). -/

def AssetHubListener.record_deposit (db : DB) (fresh_id account_id : Nat)
    (tx_hash asset : String) (amount : ℚ) (now : Nat) : Except ApiError Nat × DB :=
  if db.deposits.any (fun d => d.tx_hash = tx_hash) then
    (.error (.InvalidRequest "deposit already recorded"), db)
  else
    (.ok fresh_id,
     { db with deposits := db.deposits ++
        [{ id := fresh_id, account_id := account_id, chain := "polkadot_assethub",
           tx_hash := tx_hash, asset := asset, amount := amount, status := .pending,
           confirmations := 0, created_at := now, credited_at := none, to_address := none }] })

def PenumbraListener.record_deposit (db : DB) (fresh_id account_id : Nat)
    (tx_hash : String) (amount : ℚ) (now : Nat) : Except ApiError Nat × DB :=
  if db.deposits.any (fun d => d.tx_hash = tx_hash) then
    (.error (.InvalidRequest "deposit already recorded"), db)
  else
    (.ok fresh_id,
     { db with deposits := db.deposits ++
        [{ id := fresh_id, account_id := account_id, chain := "penumbra",
           tx_hash := tx_hash, asset := "USDC", amount := amount, status := .pending,
           confirmations := 0, created_at := now, credited_at := none, to_address := none }] })

/-! ## Penumbra deposit callback

`PenumbraDepositHandler::on_deposit` (penumbra.rs lines 37-100): look the
account up by `penumbra_index`; unknown index logs a warning and returns
`Ok(())`; a duplicate `tx_hash` is skipped with `Ok(())`; otherwise a
`confirmed` deposit row is inserted on the pool and `credit_deposit` is
invoked (its failure propagates, but the inserted row stays, having already
been committed outside the transaction). -/

/-- The `hwpay::listener::Deposit` event handed to the callback. -/
structure HwDeposit where
  tx_hash : String
  amount : ℚ
  derivation_index : Nat
  /-- The `to` field of the event (destination address); `to` is reserved in Lean. -/
  to_addr : String
deriving DecidableEq

def PenumbraDepositHandler.on_deposit (db : DB) (fresh_id : Nat)
    (fail : Option TxFailure) (now : Nat) (deposit : HwDeposit) :
    Except String Unit × DB :=
  match (db.payment_addresses.find? fun r =>
      decide (r.chain = "penumbra" ∧ r.penumbra_index = some (deposit.derivation_index : Int))) with
  | none => (.ok (), db)
  | some row =>
    let account_id := row.account_id
    if db.deposits.any (fun d => d.tx_hash = deposit.tx_hash) then
      (.ok (), db)
    else
      let db1 : DB :=
        { db with deposits := db.deposits ++
            [{ id := fresh_id, account_id := account_id, chain := "penumbra",
               tx_hash := deposit.tx_hash, asset := "USDC", amount := deposit.amount,
               status := .confirmed, confirmations := 1, created_at := now,
               credited_at := none, to_address := some deposit.to_addr }] }
      let result := credit_deposit fail db1 fresh_id account_id deposit.amount "penumbra"
        deposit.tx_hash now
      ((match result.1 with
        | .ok _ => .ok ()
        | .error e => .error e.render), result.2)

/-! ## Reconciliation sweep

`AssetHubListener::check_pending_deposits` (assethub.rs lines 298-348):
fetch the pending assethub deposits, and for each one older than two minutes
set it `confirmed` (errors ignored) and call `credit_deposit` (errors logged).
The per-deposit `failFor` oracle injects storage failures into the inner
crediting transactions. -/

/-- The `UPDATE deposits SET status = 'confirmed', confirmations = 1
WHERE id = $1` statement. -/
def confirmDeposit (db : DB) (deposit_id : Nat) : DB :=
  { db with deposits := db.deposits.map fun d =>
      if d.id = deposit_id then { d with status := .confirmed, confirmations := 1 } else d }

/-- One iteration of the sweep loop: re-fetch the row's `created_at` by id
(a missing row makes the source `continue`), and once the deposit is older
than two minutes run the confirm statement followed by `credit_deposit`
(whose failure, injected through `failFor`, is only logged). -/
def sweepStep (failFor : Nat → Option TxFailure) (now : Nat) (acc : DB)
    (d : DepositRow) : DB :=
  match acc.deposits.find? (fun row => decide (row.id = d.id)) with
  | none => acc
  | some row =>
    if now - row.created_at > 120 then
      (credit_deposit (failFor d.id) (confirmDeposit acc d.id) d.id d.account_id d.amount
        "polkadot_assethub" d.tx_hash now).2
    else acc

def check_pending_deposits (failFor : Nat → Option TxFailure) (db : DB) (now : Nat) : DB :=
  let pending := db.deposits.filter fun d =>
    decide (d.chain = "polkadot_assethub" ∧ d.status = .pending)
  pending.foldl (sweepStep failFor now) db


/-! ## Address registry (AssetHubListener, assethub.rs lines 62-208)

The listener carries `max_addresses_per_user` (default 5) and reaches the
wallet seed through `state.config.deposit_wallet_seed`; both are fields of the
model structure.  The statements run one by one on the connection pool: there
is no surrounding transaction. -/

/-- The AssetHub listener: its per-user address cap and the configured wallet
seed (`AppState::config::deposit_wallet_seed`). -/
structure AssetHubListener where
  max_addresses_per_user : Int
  deposit_wallet_seed : Option String
deriving DecidableEq

/-- Chain discriminator stored by the AssetHub listener. -/
def assetChain : String := "polkadot_assethub"

/-- Chain discriminator stored by the Penumbra listener. -/
def penumbraChain : String := "penumbra"

/-- Rows of `payment_addresses` for one account on one chain, in table
(insertion) order. -/
def addressRowsFor (db : DB) (account_id : Nat) (chain : String) : List AddressRow :=
  db.payment_addresses.filter fun r => decide (r.account_id = account_id ∧ r.chain = chain)

/-- The `SELECT COUNT(*) FROM payment_addresses WHERE account_id = $1 AND
chain = ...` query of `count_addresses`. -/
def countAddressesFor (db : DB) (account_id : Nat) (chain : String) : Int :=
  ((addressRowsFor db account_id chain).length : Int)

/-- The `SELECT MAX(derivation_index) ...` query of `rotate_address`:
SQL `MAX` of the account's indices, `NULL` (`none`) on an empty set. -/
def maxDerivIndex (db : DB) (account_id : Nat) (chain : String) : Option Int :=
  ((addressRowsFor db account_id chain).map fun r => r.derivation_index).foldl
    (fun acc i =>
      match acc with
      | none => some i
      | some m => some (max m i))
    none

/-- The `UPDATE payment_addresses SET is_active = false WHERE account_id = $1
AND chain = ...` statement. -/
def deactivateAddresses (db : DB) (account_id : Nat) (chain : String) : DB :=
  { db with payment_addresses := db.payment_addresses.map fun r =>
      if r.account_id = account_id ∧ r.chain = chain then { r with is_active := false } else r }

/-! ## SHA-512

`WalletDeriver::from_mnemonic` (src/services/wallet.rs lines 35-42) hashes
the passphrase with SHA-512 (the `sha2` crate), and the spec describes the
derivation path as mixing through a wide 512-bit hash; the algorithm is
implemented here over `Nat` with explicit reduction modulo 2^64. -/

/-- Truncation to a 64-bit machine word. -/
def w64 (n : Nat) : Nat := n % 18446744073709551616

/-- Right rotation of a 64-bit word. -/
def rotr64 (x n : Nat) : Nat := w64 ((x >>> n) ||| (x <<< (64 - n)))

/-- Three-way xor. -/
def xor3 (a b c : Nat) : Nat := (a ^^^ b) ^^^ c

def bigS0 (x : Nat) : Nat := xor3 (rotr64 x 28) (rotr64 x 34) (rotr64 x 39)

def bigS1 (x : Nat) : Nat := xor3 (rotr64 x 14) (rotr64 x 18) (rotr64 x 41)

def smallS0 (x : Nat) : Nat := xor3 (rotr64 x 1) (rotr64 x 8) (x >>> 7)

def smallS1 (x : Nat) : Nat := xor3 (rotr64 x 19) (rotr64 x 61) (x >>> 6)

def chF (x y z : Nat) : Nat := (x &&& y) ^^^ ((x ^^^ 18446744073709551615) &&& z)

def majF (x y z : Nat) : Nat := xor3 (x &&& y) (x &&& z) (y &&& z)

/-- The 80 SHA-512 round constants. -/
def shaK : List Nat := [4794697086780616226, 8158064640168781261, 13096744586834688815, 16840607885511220156, 4131703408338449720, 6480981068601479193, 10538285296894168987, 12329834152419229976, 15566598209576043074, 1334009975649890238, 2608012711638119052, 6128411473006802146, 8268148722764581231, 9286055187155687089, 11230858885718282805, 13951009754708518548, 16472876342353939154, 17275323862435702243, 1135362057144423861, 2597628984639134821, 3308224258029322869, 5365058923640841347, 6679025012923562964, 8573033837759648693, 10970295158949994411, 12119686244451234320, 12683024718118986047, 13788192230050041572, 14330467153632333762, 15395433587784984357, 489312712824947311, 1452737877330783856, 2861767655752347644, 3322285676063803686, 5560940570517711597, 5996557281743188959, 7280758554555802590, 8532644243296465576, 9350256976987008742, 10552545826968843579, 11727347734174303076, 12113106623233404929, 14000437183269869457, 14369950271660146224, 15101387698204529176, 15463397548674623760, 17586052441742319658, 1182934255886127544, 1847814050463011016, 2177327727835720531, 2830643537854262169, 3796741975233480872, 4115178125766777443, 5681478168544905931, 6601373596472566643, 7507060721942968483, 8399075790359081724, 8693463985226723168, 9568029438360202098, 10144078919501101548, 10430055236837252648, 11840083180663258601, 13761210420658862357, 14299343276471374635, 14566680578165727644, 15097957966210449927, 16922976911328602910, 17689382322260857208, 500013540394364858, 748580250866718886, 1242879168328830382, 1977374033974150939, 2944078676154940804, 3659926193048069267, 4368137639120453308, 4836135668995329356, 5532061633213252278, 6448918945643986474, 6902733635092675308, 7801388544844847127]

/-- The 8 initial SHA-512 state words. -/
def shaInit : List Nat := [7640891576956012808, 13503953896175478587, 4354685564936845355, 11912009170470909681, 5840696475078001361, 11170449401992604703, 2270897969802886507, 6620516959819538809]

/-- The eight working variables of the compression function. -/
structure ShaState where
  a : Nat
  b : Nat
  c : Nat
  d : Nat
  e : Nat
  f : Nat
  g : Nat
  h : Nat

/-- One SHA-512 round, consuming one (constant, schedule word) pair. -/
def shaRound (s : ShaState) (kw : Nat × Nat) : ShaState :=
  let t1 := w64 (s.h + bigS1 s.e + chF s.e s.f s.g + kw.1 + kw.2)
  let t2 := w64 (bigS0 s.a + majF s.a s.b s.c)
  ⟨w64 (t1 + t2), s.a, s.b, s.c, w64 (s.d + t1), s.e, s.f, s.g⟩

/-- Extend the 16 message words of a block to the 80-word schedule. -/
def extendSchedule (w16 : List Nat) : List Nat :=
  (List.range 64).foldl
    (fun w _ =>
      let n := w.length
      w ++ [w64 (smallS1 (w.getD (n - 2) 0) + w.getD (n - 7) 0 +
                 smallS0 (w.getD (n - 15) 0) + w.getD (n - 16) 0)])
    w16

/-- A big-endian word from up to eight bytes. -/
def bytesToWordBE (bs : List Nat) : Nat := bs.foldl (fun acc b => acc * 256 + b) 0

/-- The 16 big-endian 64-bit words of one 128-byte block. -/
def chunkWords (bs : List Nat) : List Nat :=
  (List.range 16).map fun i => bytesToWordBE ((bs.drop (8 * i)).take 8)

/-- SHA-512 padding: 0x80, zeros, and the 128-bit big-endian bit length. -/
def shaPad (msg : List Nat) : List Nat :=
  let len := msg.length
  let zeros := (111 + 128 - len % 128) % 128
  msg ++ [128] ++ List.replicate zeros 0 ++
    ((List.range 16).map fun i => (len * 8) >>> (8 * (15 - i)) % 256)

/-- The padded message split into 128-byte blocks. -/
def shaBlocks (bs : List Nat) : List (List Nat) :=
  (List.range (bs.length / 128)).map fun i => (bs.drop (128 * i)).take 128

/-- Compress one block into the running hash state. -/
def shaCompress (hs : List Nat) (blk : List Nat) : List Nat :=
  let w := extendSchedule (chunkWords blk)
  let s0 : ShaState :=
    ⟨hs.getD 0 0, hs.getD 1 0, hs.getD 2 0, hs.getD 3 0,
     hs.getD 4 0, hs.getD 5 0, hs.getD 6 0, hs.getD 7 0⟩
  let s := (shaK.zip w).foldl shaRound s0
  [w64 (hs.getD 0 0 + s.a), w64 (hs.getD 1 0 + s.b), w64 (hs.getD 2 0 + s.c),
   w64 (hs.getD 3 0 + s.d), w64 (hs.getD 4 0 + s.e), w64 (hs.getD 5 0 + s.f),
   w64 (hs.getD 6 0 + s.g), w64 (hs.getD 7 0 + s.h)]

/-- Big-endian byte expansion of a 64-bit word. -/
def wordToBytesBE (w : Nat) : List Nat :=
  (List.range 8).map fun i => (w >>> (8 * (7 - i))) % 256

/-- SHA-512 of a byte string, as 64 bytes. -/
def sha512 (msg : List Nat) : List Nat :=
  (((shaBlocks (shaPad msg)).foldl shaCompress shaInit).map wordToBytesBE).flatten

/-! ## Base58 and SS58 encoding

The chain-native encoding of a Polkadot address: base58 over one network
prefix byte, the 32-byte public key and a 2-byte checksum.  The real SS58
checksum uses blake2b-512 of `"SS58PRE" ‖ payload`; hwpay's encoder is not in
this repository, so, modelled from the spec ("a 512-bit hash"), the checksum
hash is SHA-512 here.  Every structural property (alphabet, prefix and
checksum layout, leading-zero handling) follows the SS58 format. -/

/-- UTF-8 bytes of a string; all inputs in this development are ASCII, where
code points and UTF-8 bytes coincide. -/
def strBytes (s : String) : List Nat := s.toList.map Char.toNat

/-- Big-endian value of an arbitrary-length byte string. -/
def bytesToNatBE (bs : List Nat) : Nat := bs.foldl (fun acc b => acc * 256 + b) 0

/-- The base58 alphabet (Bitcoin/IPFS variant used by SS58). -/
def base58Alphabet : List Char :=
  "123456789ABCDEFGHJKLMNPQRSTUVWXYZabcdefghijkmnopqrstuvwxyz".toList

/-- Digits of `n` in base 58, most significant first.  `fuel` bounds the
recursion; any fuel of at least the digit count is exact. -/
def natToBase58 : Nat → Nat → List Char
  | 0, _ => []
  | _ + 1, 0 => []
  | fuel + 1, n => natToBase58 fuel (n / 58) ++ [base58Alphabet.getD (n % 58) '?']

/-- Number of leading zero bytes. -/
def leadingZeros : List Nat → Nat
  | 0 :: rest => leadingZeros rest + 1
  | _ => 0

/-- Base58 encoding of a byte string: one '1' per leading zero byte, then the
base58 digits of the remaining big-endian value. -/
def base58Encode (bs : List Nat) : String :=
  String.mk (List.replicate (leadingZeros bs) '1' ++
    natToBase58 (2 * bs.length) (bytesToNatBE bs))

/-- The SS58 checksum: the first two bytes of the 512-bit hash of
`"SS58PRE" ‖ payload`. -/
def ss58Checksum (payload : List Nat) : List Nat :=
  (sha512 (strBytes "SS58PRE" ++ payload)).take 2

/-- SS58 encoding of a public key under a network prefix byte. -/
def ss58Encode (networkId : Nat) (pubkey : List Nat) : String :=
  let payload := networkId :: pubkey
  let full := payload ++ ss58Checksum payload
  base58Encode full

/-- Index of a character in the base58 alphabet. -/
def base58CharIndex (c : Char) : Option Nat :=
  (base58Alphabet.findIdx? fun d => d = c)

/-- Values of a base58 digit string; `none` if any character is foreign. -/
def base58Values : List Char → Option (List Nat)
  | [] => some []
  | c :: rest =>
    match base58CharIndex c, base58Values rest with
    | some v, some vs => some (v :: vs)
    | _, _ => none

/-- Minimal big-endian byte expansion of a value (no leading zero byte). -/
def natToBytesBE : Nat → Nat → List Nat
  | 0, _ => []
  | _ + 1, 0 => []
  | fuel + 1, n => natToBytesBE fuel (n / 256) ++ [n % 256]

/-- Number of leading '1' characters. -/
def leadingOnes : List Char → Nat
  | '1' :: rest => leadingOnes rest + 1
  | _ => 0

/-- Base58 decoding of a string back to bytes. -/
def base58Decode (s : String) : Option (List Nat) :=
  match base58Values s.toList with
  | none => none
  | some vs =>
    let value := vs.foldl (fun acc v => acc * 58 + v) 0
    some (List.replicate (leadingOnes s.toList) 0 ++ natToBytesBE (2 * s.length) value)

/-- Modelled from the spec: `decode_ss58` (re-exported by
src/services/wallet.rs from hwpay, whose source is not in this repository)
checks that an address is syntactically valid in the chain's native encoding:
base58, 35 bytes, the expected network prefix and a matching checksum, and
returns the embedded public key. -/
def decode_polkadot_address (address : String) : Option (List Nat) :=
  match base58Decode address with
  | none => none
  | some bs =>
    if bs.length = 35 ∧ bs.take 1 = [0] ∧
        bs.drop 33 = ss58Checksum (bs.take 33) then
      some ((bs.drop 1).take 32)
    else
      none

/-! ## WalletDeriver (src/services/wallet.rs lines 16-72) -/

/-- A wallet deriver is root seed bytes (`PolkadotWallet::from_seed`; the
hwpay-internal validation is not in this repository and no claim depends on
it). -/
structure WalletDeriver where
  seed : List Nat
deriving DecidableEq

/-- Repeatedly strip a leading `"0x"` (Rust `trim_start_matches("0x")`). -/
def stripHexMarker : List Char → List Char
  | '0' :: 'x' :: rest => stripHexMarker rest
  | l => l

/-- Value of one hex digit. -/
def hexVal (c : Char) : Option Nat :=
  if '0' ≤ c ∧ c ≤ '9' then some (c.toNat - 48)
  else if 'a' ≤ c ∧ c ≤ 'f' then some (c.toNat - 87)
  else if 'A' ≤ c ∧ c ≤ 'F' then some (c.toNat - 70)
  else none

/-- Hex decoding of a character list into bytes. -/
def hexDecodeChars : List Char → Option (List Nat)
  | [] => some []
  | c1 :: c2 :: rest =>
    match hexVal c1, hexVal c2, hexDecodeChars rest with
    | some h, some l, some bs => some ((16 * h + l) :: bs)
    | _, _, _ => none
  | [_] => none

/-- `hex::decode` after stripping the `0x` marker. -/
def hexDecode (s : String) : Option (List Nat) :=
  hexDecodeChars (stripHexMarker s.toList)

/-- `WalletDeriver::from_seed_bytes`. -/
def WalletDeriver.from_seed_bytes (seed : List Nat) : WalletDeriver := ⟨seed⟩

/-- `WalletDeriver::from_mnemonic`: SHA-512 of
`"sonotxt-master-seed:" ‖ mnemonic`, truncated to 32 bytes. -/
def WalletDeriver.from_mnemonic (mnemonic : String) : WalletDeriver :=
  ⟨(sha512 (strBytes "sonotxt-master-seed:" ++ strBytes mnemonic)).take 32⟩

/-- `WalletDeriver::from_seed_hex`, with the `from_mnemonic` fallback used at
the construction site in `derive_and_store_address`
(`from_seed_hex(seed).or_else(|_| from_mnemonic(seed))`). -/
def WalletDeriver.from_seed_config (seed : String) : WalletDeriver :=
  match hexDecode seed with
  | some bytes => ⟨bytes⟩
  | none => WalletDeriver.from_mnemonic seed

/-- Big-endian bytes of a 32-bit index. -/
def be32 (n : Nat) : List Nat :=
  [n >>> 24 % 256, n >>> 16 % 256, n >>> 8 % 256, n % 256]

/-- Modelled from the spec: `PolkadotWallet::derive_address` (hwpay, not in
this repository).  The spec requires a pure deterministic derivation whose
path mixes the root seed, the opaque account identifier and the index through
a wide cryptographic hash, rendered in the chain-native encoding; modelled as
the SS58 (network prefix 0) encoding of the first 32 bytes of
SHA-512(seed ‖ utf8(user_id) ‖ be32(index)). -/
def WalletDeriver.derive_polkadot_address (w : WalletDeriver) (user_id : String)
    (derivation_index : Nat) : String :=
  ss58Encode 0 ((sha512 (w.seed ++ strBytes user_id ++ be32 derivation_index)).take 32)

/-! ## Seed manager (src/services/seed_manager.rs lines 13-117) -/

/-- Identifier of a secret in the hwpay vault. -/
inductive SecretId
  | WalletSeed
deriving DecidableEq

/-- How the vault stored the secret. -/
inductive StorageMethod
  | Tpm
  | EncryptedFile
deriving DecidableEq

/-- The error type of the seed manager. -/
inductive SeedError
  | Vault (msg : String)
  | NotConfigured
  | InvalidSeed (msg : String)
deriving DecidableEq

/-- Modelled from the spec: `hwpay::Vault` is not in this repository; the spec
treats it as an opaque "store/load raw seed bytes" service.  It is modelled as
a key-value store whose `store` replaces the value for the id and always
succeeds (through the encrypted-file method). -/
def Vault := List (SecretId × List Nat)

/-- Store a value in the modelled vault, replacing any previous one. -/
def vaultStore (v : Vault) (id : SecretId) (value : List Nat) : Vault :=
  (v.filter fun kv => decide (kv.1 ≠ id)) ++ [(id, value)]

/-- Shallow embedding of `SeedManager::store_seed`: seeds that are neither 32
nor 64 bytes long are rejected with `InvalidSeed` naming the actual length,
before the vault is opened; valid lengths are written to the vault.  The
result pairs the source's `Result` with the vault state after the call. -/
def SeedManager.store_seed (vault : Vault) (seed : List Nat) :
    Except SeedError StorageMethod × Vault :=
  if seed.length ≠ 32 ∧ seed.length ≠ 64 then
    (.error (.InvalidSeed ("seed must be 32 or 64 bytes, got " ++ toString seed.length)), vault)
  else
    (.ok .EncryptedFile, vaultStore vault .WalletSeed seed)


/-! ## AssetHub listener operations (assethub.rs lines 62-208) -/

/-- Relation ordering address rows by `derivation_index DESC` (the
`ORDER BY` of `list_addresses`). -/
def addrDesc (x y : AddressRow) : Prop := y.derivation_index ≤ x.derivation_index

instance : DecidableRel addrDesc := fun x y =>
  inferInstanceAs (Decidable (y.derivation_index ≤ x.derivation_index))

instance : IsTotal AddressRow addrDesc :=
  ⟨fun x y => le_total y.derivation_index x.derivation_index⟩

instance : IsTrans AddressRow addrDesc :=
  ⟨fun _ _ _ hxy hyz => le_trans hyz hxy⟩

/-- `AssetHubListener::count_addresses`. -/
def AssetHubListener.count_addresses (db : DB) (account_id : Nat) : Int :=
  countAddressesFor db account_id assetChain

/-- `AssetHubListener::derive_and_store_address` (assethub.rs lines 146-184):
fails if no seed is configured, otherwise builds the deriver
(`from_seed_hex` with the `from_mnemonic` fallback), derives the address for
`account_id.to_string()` and inserts it as an active row.  The statements run
on the pool, outside any transaction. -/
def AssetHubListener.derive_and_store_address (l : AssetHubListener) (db : DB)
    (account_id : Nat) (derivation_index : Nat) : Except ApiError String × DB :=
  match l.deposit_wallet_seed with
  | none => (.error (.Internal "no deposit wallet seed configured"), db)
  | some seed =>
    let deriver := WalletDeriver.from_seed_config seed
    let address := deriver.derive_polkadot_address (toString account_id) derivation_index
    (.ok address,
     { db with payment_addresses := db.payment_addresses ++
        [{ account_id := account_id, chain := assetChain, address := address,
           derivation_index := (derivation_index : Int), penumbra_index := none,
           is_active := true }] })

/-- `AssetHubListener::rotate_address` (assethub.rs lines 86-127): reject at
the address cap, compute `max(existing indices) + 1` (`-1` sentinel when the
account has no row), deactivate all the account's rows, then derive and store
the new active address. -/
def AssetHubListener.rotate_address (l : AssetHubListener) (db : DB)
    (account_id : Nat) : Except ApiError String × DB :=
  let count := AssetHubListener.count_addresses db account_id
  if count ≥ l.max_addresses_per_user then
    (.error (.InvalidRequest ("address limit reached (" ++ toString count ++ "/" ++
       toString l.max_addresses_per_user ++ ")")), db)
  else
    let max_index := maxDerivIndex db account_id assetChain
    let new_index := max_index.getD (-1) + 1
    let db1 := deactivateAddresses db account_id assetChain
    l.derive_and_store_address db1 account_id new_index.toNat

/-- `AssetHubListener::get_deposit_address` (assethub.rs lines 63-83). -/
def AssetHubListener.get_deposit_address (l : AssetHubListener) (db : DB)
    (account_id : Nat) : Except ApiError String × DB :=
  match db.payment_addresses.find? (fun r =>
      decide (r.account_id = account_id ∧ r.chain = assetChain ∧ r.is_active = true)) with
  | some r => (.ok r.address, db)
  | none => l.derive_and_store_address db account_id 0

/-- `AssetHubListener::remaining_address_slots`. -/
def AssetHubListener.remaining_address_slots (l : AssetHubListener) (db : DB)
    (account_id : Nat) : Int :=
  max (l.max_addresses_per_user - AssetHubListener.count_addresses db account_id) 0

/-- `AssetHubListener::list_addresses` (assethub.rs lines 193-208): the
account's rows ordered by `derivation_index DESC`, as
`(address, derivation_index, is_active)` tuples. -/
def AssetHubListener.list_addresses (db : DB) (account_id : Nat) :
    List (String × Int × Bool) :=
  ((addressRowsFor db account_id assetChain).insertionSort addrDesc).map
    fun r => (r.address, r.derivation_index, r.is_active)

/-! ## Penumbra listener operations (penumbra.rs lines 103-344) -/

/-- The Penumbra listener: the per-user cap and the wallet configuration.
`pcli_spend_key` models what `parse_pcli_config(pcli_config_path)` would
return when a pcli config path is configured (`none` when the path is not
set); the file system itself is outside the model. -/
structure PenumbraListener where
  max_addresses_per_user : Int
  penumbra_spend_key : Option String
  pcli_spend_key : Option (Except String String)
  deposit_wallet_seed : Option String

/-- Hex rendering of bytes. -/
def hexEncode (bs : List Nat) : String :=
  String.mk (bs.flatMap fun b =>
    ["0123456789abcdef".toList.getD (b / 16) '?',
     "0123456789abcdef".toList.getD (b % 16) '?'])

/-- Modelled from the spec: `PenumbraWallet::from_spend_key_bech32` (hwpay,
not in this repository) turns the configured spend key into key material; the
model keeps the raw bytes of the string.  No claim exercises a malformed
key. -/
def PenumbraWallet.from_spend_key_bech32 (sk : String) : Except String (List Nat) :=
  .ok (strBytes sk)

/-- Modelled from the spec: `PenumbraWallet::from_seed` (hwpay, not in this
repository). -/
def PenumbraWallet.from_seed (seed : List Nat) : Except String (List Nat) :=
  .ok seed

/-- Modelled from the spec: `PenumbraWallet::derive_address` (hwpay, not in
this repository) deterministically derives a shielded address and the
diversifier sub-index used to map observed deposits back to the account;
modelled through the same 512-bit hash mix. -/
def PenumbraWallet.derive_address (key : List Nat) (user_id : String)
    (derivation_index : Nat) : String × Nat :=
  let h := sha512 (key ++ strBytes user_id ++ be32 derivation_index)
  ("penumbra1" ++ hexEncode (h.take 16), bytesToNatBE (h.take 4))

/-- `PenumbraListener::derive_and_store_address` (penumbra.rs lines 205-255):
wallet from the spend key, the pcli config, or the hex seed, in that order;
then derive and insert the active row carrying the `penumbra_index`. -/
def PenumbraListener.derive_and_store_address (l : PenumbraListener) (db : DB)
    (account_id : Nat) (derivation_index : Nat) : Except ApiError String × DB :=
  let wallet : Except ApiError (List Nat) :=
    match l.penumbra_spend_key with
    | some sk =>
      match PenumbraWallet.from_spend_key_bech32 sk with
      | .ok k => .ok k
      | .error e => .error (.Internal ("invalid spend key: " ++ e))
    | none =>
      match l.pcli_spend_key with
      | some parsed =>
        match parsed with
        | .error e => .error (.Internal e)
        | .ok sk =>
          match PenumbraWallet.from_spend_key_bech32 sk with
          | .ok k => .ok k
          | .error e => .error (.Internal ("invalid spend key from pcli config: " ++ e))
      | none =>
        match l.deposit_wallet_seed with
        | some seed =>
          match hexDecode seed with
          | none => .error (.Internal "invalid hex seed: decoding failed")
          | some bytes =>
            match PenumbraWallet.from_seed bytes with
            | .ok k => .ok k
            | .error e => .error (.Internal ("invalid wallet seed: " ++ e))
        | none => .error (.Internal
            "no penumbra wallet configured (set PENUMBRA_SPEND_KEY, PCLI_CONFIG_PATH, or DEPOSIT_WALLET_SEED)")
  match wallet with
  | .error e => (.error e, db)
  | .ok key =>
    let derived := PenumbraWallet.derive_address key (toString account_id) derivation_index
    (.ok derived.1,
     { db with payment_addresses := db.payment_addresses ++
        [{ account_id := account_id, chain := penumbraChain, address := derived.1,
           derivation_index := (derivation_index : Int),
           penumbra_index := some (derived.2 : Int), is_active := true }] })

/-- `PenumbraListener::count_addresses`. -/
def PenumbraListener.count_addresses (db : DB) (account_id : Nat) : Int :=
  countAddressesFor db account_id penumbraChain

/-- `PenumbraListener::rotate_address` (penumbra.rs lines 147-187): the same
cap check, max-index computation, deactivation and derivation as the AssetHub
variant, over the `penumbra` chain. -/
def PenumbraListener.rotate_address (l : PenumbraListener) (db : DB)
    (account_id : Nat) : Except ApiError String × DB :=
  let count := PenumbraListener.count_addresses db account_id
  if count ≥ l.max_addresses_per_user then
    (.error (.InvalidRequest ("address limit reached (" ++ toString count ++ "/" ++
       toString l.max_addresses_per_user ++ ")")), db)
  else
    let max_index := maxDerivIndex db account_id penumbraChain
    let new_index := max_index.getD (-1) + 1
    let db1 := deactivateAddresses db account_id penumbraChain
    l.derive_and_store_address db1 account_id new_index.toNat


/-! ## Derived observations used by the claims -/

instance {e a : Type} [DecidableEq e] [DecidableEq a] : DecidableEq (Except e a) := fun x y =>
  match x, y with
  | .ok v, .ok w =>
    if h : v = w then isTrue (by rw [h]) else isFalse (by intro hc; cases hc; exact h rfl)
  | .error v, .error w =>
    if h : v = w then isTrue (by rw [h]) else isFalse (by intro hc; cases hc; exact h rfl)
  | .ok _, .error _ => isFalse (by intro hc; cases hc)
  | .error _, .ok _ => isFalse (by intro hc; cases hc)

/-- The balance column for an account: `none` when the account has no
`account_credits` row. -/
def balanceOf (db : DB) (account_id : Nat) : Option ℚ :=
  (db.account_credits.find? fun c => decide (c.account_id = account_id)).map fun c => c.balance

/-- Sum of the account's ledger entries. -/
def ledgerSum (db : DB) (account_id : Nat) : ℚ :=
  ((db.transactions.filter fun t => decide (t.account_id = account_id)).map fun t => t.amount).sum

/-- The ledger invariant of the spec, as a decidable check: an account that
has a balance row has its balance equal to the sum of its ledger entries. -/
def balanceMatchesLedger (db : DB) (account_id : Nat) : Bool :=
  match balanceOf db account_id with
  | none => true
  | some b => decide (b = ledgerSum db account_id)

/-- Number of active `payment_addresses` rows of an account on a chain. -/
def activeAddressCount (db : DB) (account_id : Nat) (chain : String) : Nat :=
  ((addressRowsFor db account_id chain).filter fun r => r.is_active).length

/-! ## C9 -/

/-- C9: a seed whose length is neither 32 nor 64 bytes is rejected by
`SeedManager::store_seed` with the `InvalidSeed` error naming the actual
length, before anything is written to the vault, while 32- and 64-byte seeds
pass the validation. -/
theorem c9_store_seed_length_validation (vault : Vault) (seed : List Nat) :
    (seed.length ≠ 32 ∧ seed.length ≠ 64 →
      SeedManager.store_seed vault seed =
        (.error (.InvalidSeed ("seed must be 32 or 64 bytes, got " ++ toString seed.length)),
         vault)) ∧
    (seed.length = 32 ∨ seed.length = 64 →
      (SeedManager.store_seed vault seed).1 = .ok .EncryptedFile) := by
  constructor
  · intro h
    simp only [SeedManager.store_seed, if_pos h]
  · intro h
    have hne : ¬(seed.length ≠ 32 ∧ seed.length ≠ 64) := by
      rcases h with h | h <;> simp [h]
    simp only [SeedManager.store_seed, if_neg hne]

/-- Witness for C9 at a 31-byte and a 32-byte seed. -/
theorem c9_store_seed_length_validation_witness :
    SeedManager.store_seed [] (List.replicate 31 0) =
      (.error (.InvalidSeed ("seed must be 32 or 64 bytes, got " ++
        toString (List.replicate 31 (0 : Nat)).length)), []) ∧
    (SeedManager.store_seed [] (List.replicate 32 0)).1 = .ok .EncryptedFile :=
  ⟨(c9_store_seed_length_validation [] (List.replicate 31 0)).1 (by decide),
   (c9_store_seed_length_validation [] (List.replicate 32 0)).2 (Or.inl (by decide))⟩

/-! ## C10 -/

/-- C10: a shielded-chain deposit whose derivation sub-index matches no
`payment_addresses` row makes `on_deposit` return success with the whole
store unchanged: no deposit row, no balance change, no ledger entry. -/
theorem c10_unknown_subindex_is_noop (db : DB) (fresh_id : Nat)
    (fail : Option TxFailure) (now : Nat) (dep : HwDeposit)
    (h : ∀ r ∈ db.payment_addresses,
      ¬(r.chain = "penumbra" ∧ r.penumbra_index = some (dep.derivation_index : Int))) :
    PenumbraDepositHandler.on_deposit db fresh_id fail now dep = (.ok (), db) := by
  have hfind : (db.payment_addresses.find? fun r =>
      decide (r.chain = "penumbra" ∧ r.penumbra_index = some (dep.derivation_index : Int))) =
      none := by
    rw [List.find?_eq_none]
    intro r hr
    simpa using h r hr
  simp only [PenumbraDepositHandler.on_deposit, hfind]

/-- Witness for C10: a store holding one penumbra address with sub-index 3
and an account-credits row is untouched by a deposit carrying sub-index 4. -/
theorem c10_unknown_subindex_is_noop_witness :
    PenumbraDepositHandler.on_deposit
        ⟨[⟨7, "penumbra", "paddr", 0, some 3, true⟩], [], [], [⟨7, 0⟩]⟩
        99 none 0 ⟨"0xfeed", 10, 4, "paddr"⟩ =
      (.ok (), ⟨[⟨7, "penumbra", "paddr", 0, some 3, true⟩], [], [], [⟨7, 0⟩]⟩) :=
  c10_unknown_subindex_is_noop _ 99 none 0 _ (by decide)

/-! ## C7 -/

/-- C7: when no deposit with the given `tx_hash` exists, `record_deposit`
(either listener variant) inserts exactly one `pending` row and returns the
fresh id; an immediately following call with the identical `tx_hash` fails
with "deposit already recorded", inserts nothing and leaves every table — in
particular the balances — unchanged. -/
theorem c7_record_deposit_dedup (db : DB) (tx_hash : String)
    (f1 a1 : Nat) (asset1 : String) (amt1 : ℚ) (t1 : Nat)
    (f2 a2 : Nat) (asset2 : String) (amt2 : ℚ) (t2 : Nat)
    (hno : ∀ d ∈ db.deposits, d.tx_hash ≠ tx_hash) :
    (AssetHubListener.record_deposit db f1 a1 tx_hash asset1 amt1 t1 =
      (.ok f1,
       { db with deposits := db.deposits ++
          [{ id := f1, account_id := a1, chain := "polkadot_assethub", tx_hash := tx_hash,
             asset := asset1, amount := amt1, status := .pending, confirmations := 0,
             created_at := t1, credited_at := none, to_address := none }] }) ∧
     (AssetHubListener.record_deposit
        (AssetHubListener.record_deposit db f1 a1 tx_hash asset1 amt1 t1).2
        f2 a2 tx_hash asset2 amt2 t2) =
      (.error (.InvalidRequest "deposit already recorded"),
       (AssetHubListener.record_deposit db f1 a1 tx_hash asset1 amt1 t1).2)) ∧
    (PenumbraListener.record_deposit db f1 a1 tx_hash amt1 t1 =
      (.ok f1,
       { db with deposits := db.deposits ++
          [{ id := f1, account_id := a1, chain := "penumbra", tx_hash := tx_hash,
             asset := "USDC", amount := amt1, status := .pending, confirmations := 0,
             created_at := t1, credited_at := none, to_address := none }] }) ∧
     (PenumbraListener.record_deposit
        (PenumbraListener.record_deposit db f1 a1 tx_hash amt1 t1).2
        f2 a2 tx_hash amt2 t2) =
      (.error (.InvalidRequest "deposit already recorded"),
       (PenumbraListener.record_deposit db f1 a1 tx_hash amt1 t1).2)) := by
  have hany : db.deposits.any (fun d => d.tx_hash = tx_hash) = false := by
    rw [List.any_eq_false]
    intro d hd
    simpa using hno d hd
  constructor
  · constructor
    · simp only [AssetHubListener.record_deposit, hany, Bool.false_eq_true, if_false]
    · simp only [AssetHubListener.record_deposit, hany, Bool.false_eq_true, if_false]
      rw [if_pos]
      rw [List.any_eq_true]
      refine ⟨_, List.mem_append_right _ (List.mem_singleton.mpr rfl), by simp⟩
  · constructor
    · simp only [PenumbraListener.record_deposit, hany, Bool.false_eq_true, if_false]
    · simp only [PenumbraListener.record_deposit, hany, Bool.false_eq_true, if_false]
      rw [if_pos]
      rw [List.any_eq_true]
      refine ⟨_, List.mem_append_right _ (List.mem_singleton.mpr rfl), by simp⟩

/-- Witness for C7 on an initially empty deposits table. -/
theorem c7_record_deposit_dedup_witness :
    (AssetHubListener.record_deposit ⟨[], [], [], [⟨7, 0⟩]⟩ 1 7 "0xabc" "USDC" 10 0 =
      (.ok 1,
       { payment_addresses := [], deposits :=
          [{ id := 1, account_id := 7, chain := "polkadot_assethub", tx_hash := "0xabc",
             asset := "USDC", amount := 10, status := .pending, confirmations := 0,
             created_at := 0, credited_at := none, to_address := none }],
         transactions := [], account_credits := [⟨7, 0⟩] }) ∧
     (AssetHubListener.record_deposit
        (AssetHubListener.record_deposit ⟨[], [], [], [⟨7, 0⟩]⟩ 1 7 "0xabc" "USDC" 10 0).2
        2 7 "0xabc" "USDC" 10 5) =
      (.error (.InvalidRequest "deposit already recorded"),
       (AssetHubListener.record_deposit ⟨[], [], [], [⟨7, 0⟩]⟩ 1 7 "0xabc" "USDC" 10 0).2)) ∧
    (PenumbraListener.record_deposit ⟨[], [], [], [⟨7, 0⟩]⟩ 1 7 "0xabc" 10 0 =
      (.ok 1,
       { payment_addresses := [], deposits :=
          [{ id := 1, account_id := 7, chain := "penumbra", tx_hash := "0xabc",
             asset := "USDC", amount := 10, status := .pending, confirmations := 0,
             created_at := 0, credited_at := none, to_address := none }],
         transactions := [], account_credits := [⟨7, 0⟩] }) ∧
     (PenumbraListener.record_deposit
        (PenumbraListener.record_deposit ⟨[], [], [], [⟨7, 0⟩]⟩ 1 7 "0xabc" 10 0).2
        2 7 "0xabc" 10 5) =
      (.error (.InvalidRequest "deposit already recorded"),
       (PenumbraListener.record_deposit ⟨[], [], [], [⟨7, 0⟩]⟩ 1 7 "0xabc" 10 0).2)) :=
  c7_record_deposit_dedup ⟨[], [], [], [⟨7, 0⟩]⟩ "0xabc" 1 7 "USDC" 10 0 2 7 "USDC" 10 5
    (by decide)


/-! ## C5 -/

/-- C5: on either chain, an account already holding N addresses, N being the
configured limit, has its next rotation rejected with the typed invalid-request
error whose message is "address limit reached (N/N)", with the store returned
untouched — no row created, deactivated, or changed. -/
theorem c5_rotate_at_limit_rejected (l : AssetHubListener) (lp : PenumbraListener)
    (db : DB) (account_id : Nat) (N : Int)
    (h1 : l.max_addresses_per_user = N)
    (h2 : AssetHubListener.count_addresses db account_id = N)
    (h3 : lp.max_addresses_per_user = N)
    (h4 : PenumbraListener.count_addresses db account_id = N) :
    l.rotate_address db account_id =
      (.error (.InvalidRequest ("address limit reached (" ++ toString N ++ "/" ++
        toString N ++ ")")), db) ∧
    lp.rotate_address db account_id =
      (.error (.InvalidRequest ("address limit reached (" ++ toString N ++ "/" ++
        toString N ++ ")")), db) := by
  constructor
  · simp only [AssetHubListener.rotate_address, h1, h2, ge_iff_le, le_refl, if_pos]
  · simp only [PenumbraListener.rotate_address, h3, h4, ge_iff_le, le_refl, if_pos]

/-- Witness for C5: an account with five addresses per chain and the default
limit of five. -/
theorem c5_rotate_at_limit_rejected_witness :
    AssetHubListener.rotate_address ⟨5, none⟩
        ⟨[⟨7, "polkadot_assethub", "a0", 0, none, false⟩,
          ⟨7, "polkadot_assethub", "a1", 1, none, false⟩,
          ⟨7, "polkadot_assethub", "a2", 2, none, false⟩,
          ⟨7, "polkadot_assethub", "a3", 3, none, false⟩,
          ⟨7, "polkadot_assethub", "a4", 4, none, true⟩,
          ⟨7, "penumbra", "p0", 0, some 10, false⟩,
          ⟨7, "penumbra", "p1", 1, some 11, false⟩,
          ⟨7, "penumbra", "p2", 2, some 12, false⟩,
          ⟨7, "penumbra", "p3", 3, some 13, false⟩,
          ⟨7, "penumbra", "p4", 4, some 14, true⟩], [], [], []⟩ 7 =
      (.error (.InvalidRequest ("address limit reached (" ++ toString (5 : Int) ++ "/" ++
        toString (5 : Int) ++ ")")),
       ⟨[⟨7, "polkadot_assethub", "a0", 0, none, false⟩,
         ⟨7, "polkadot_assethub", "a1", 1, none, false⟩,
         ⟨7, "polkadot_assethub", "a2", 2, none, false⟩,
         ⟨7, "polkadot_assethub", "a3", 3, none, false⟩,
         ⟨7, "polkadot_assethub", "a4", 4, none, true⟩,
         ⟨7, "penumbra", "p0", 0, some 10, false⟩,
         ⟨7, "penumbra", "p1", 1, some 11, false⟩,
         ⟨7, "penumbra", "p2", 2, some 12, false⟩,
         ⟨7, "penumbra", "p3", 3, some 13, false⟩,
         ⟨7, "penumbra", "p4", 4, some 14, true⟩], [], [], []⟩) ∧
    PenumbraListener.rotate_address ⟨5, none, none, none⟩
        ⟨[⟨7, "polkadot_assethub", "a0", 0, none, false⟩,
          ⟨7, "polkadot_assethub", "a1", 1, none, false⟩,
          ⟨7, "polkadot_assethub", "a2", 2, none, false⟩,
          ⟨7, "polkadot_assethub", "a3", 3, none, false⟩,
          ⟨7, "polkadot_assethub", "a4", 4, none, true⟩,
          ⟨7, "penumbra", "p0", 0, some 10, false⟩,
          ⟨7, "penumbra", "p1", 1, some 11, false⟩,
          ⟨7, "penumbra", "p2", 2, some 12, false⟩,
          ⟨7, "penumbra", "p3", 3, some 13, false⟩,
          ⟨7, "penumbra", "p4", 4, some 14, true⟩], [], [], []⟩ 7 =
      (.error (.InvalidRequest ("address limit reached (" ++ toString (5 : Int) ++ "/" ++
        toString (5 : Int) ++ ")")),
       ⟨[⟨7, "polkadot_assethub", "a0", 0, none, false⟩,
         ⟨7, "polkadot_assethub", "a1", 1, none, false⟩,
         ⟨7, "polkadot_assethub", "a2", 2, none, false⟩,
         ⟨7, "polkadot_assethub", "a3", 3, none, false⟩,
         ⟨7, "polkadot_assethub", "a4", 4, none, true⟩,
         ⟨7, "penumbra", "p0", 0, some 10, false⟩,
         ⟨7, "penumbra", "p1", 1, some 11, false⟩,
         ⟨7, "penumbra", "p2", 2, some 12, false⟩,
         ⟨7, "penumbra", "p3", 3, some 13, false⟩,
         ⟨7, "penumbra", "p4", 4, some 14, true⟩], [], [], []⟩) :=
  c5_rotate_at_limit_rejected ⟨5, none⟩ ⟨5, none, none, none⟩ _ 7 5
    rfl (by decide) rfl (by decide)

/-! ## C1 -/

/-- Store on which C1 is evaluated: one confirmed deposit with tx hash
"0xabc" and a zero balance for its account. -/
def c1db : DB :=
  { payment_addresses := [],
    deposits := [⟨1, 7, "polkadot_assethub", "0xabc", "USDC", 10, .confirmed, 1, 0, none, none⟩],
    transactions := [],
    account_credits := [⟨7, 0⟩] }

/-- C1: contrary to the claim, `credit_deposit` performs no `tx_hash` (or any
other) dedup check: invoked a second time with the same `tx_hash` after the
first call committed, the second invocation succeeds again, the balance is
incremented twice (0 → 20 for two deposits of 10), and two ledger entries
referencing the tx hash exist. -/
theorem c1_credit_deposit_double_credits :
    (credit_deposit none c1db 1 7 10 "polkadot_assethub" "0xabc" 130).1 = .ok () ∧
    (credit_deposit none
        (credit_deposit none c1db 1 7 10 "polkadot_assethub" "0xabc" 130).2
        1 7 10 "polkadot_assethub" "0xabc" 260).1 = .ok () ∧
    (credit_deposit none
        (credit_deposit none c1db 1 7 10 "polkadot_assethub" "0xabc" 130).2
        1 7 10 "polkadot_assethub" "0xabc" 260).2.account_credits = [⟨7, 20⟩] ∧
    ((credit_deposit none
        (credit_deposit none c1db 1 7 10 "polkadot_assethub" "0xabc" 130).2
        1 7 10 "polkadot_assethub" "0xabc" 260).2.transactions.filter
      fun t => t.tx_hash = some "0xabc").length = 2 :=
  of_decide_eq_true (by with_unfolding_all rfl)

/-! ## C2 -/

/-- Listener on which C2 is evaluated: default cap, no wallet seed
configured. -/
def c2listener : AssetHubListener := ⟨5, none⟩

/-- Store on which C2 is evaluated: one active address for account 7. -/
def c2db : DB :=
  { payment_addresses := [⟨7, "polkadot_assethub", "addr0", 0, none, true⟩],
    deposits := [], transactions := [], account_credits := [] }

/-- C2: contrary to the claim, the deactivate-all and insert-new steps of
`rotate_address` are separate pool statements, not one atomic unit: when the
derivation step fails after deactivation (here because no wallet seed is
configured), the rotation returns an error and the account is left with zero
active addresses — the prior active address is no longer active. -/
theorem c2_failed_rotation_leaves_no_active_address :
    activeAddressCount c2db 7 assetChain = 1 ∧
    (c2listener.rotate_address c2db 7).1 =
      .error (.Internal "no deposit wallet seed configured") ∧
    activeAddressCount (c2listener.rotate_address c2db 7).2 7 assetChain = 0 := by decide

/-! ## C4 counterexample store -/

/-- Store on which the C4 counterexample is evaluated: one `pending` deposit. -/
def c4db : DB :=
  { payment_addresses := [],
    deposits := [⟨1, 7, "polkadot_assethub", "0xdef", "USDC", 10, .pending, 0, 0, none, none⟩],
    transactions := [],
    account_credits := [⟨7, 0⟩] }

/-- C4 counterexample: `credit_deposit` marks a deposit `credited` even when
its current status is `pending`, not `confirmed` — the update carries no
status guard — refuting the claim that the transition happens only from
`confirmed`. -/
theorem c4_credit_from_pending_counterexample :
    c4db.deposits.map (fun d => d.status) = [.pending] ∧
    (credit_deposit none c4db 1 7 10 "polkadot_assethub" "0xdef" 9).1 = .ok () ∧
    (credit_deposit none c4db 1 7 10 "polkadot_assethub" "0xdef" 9).2.deposits.map
      (fun d => d.status) = [.credited] := by decide


/-! ## C3 -/

/-- Mapping the balance update over a credits list rewrites its `find?` by
account id. -/
theorem find?_map_balance (l : List CreditRow) (a : Nat) (amt : ℚ) :
    ((l.map fun c => if c.account_id = a then { c with balance := c.balance + amt } else c).find?
        fun c => decide (c.account_id = a)) =
      (l.find? fun c => decide (c.account_id = a)).map
        fun c => { c with balance := c.balance + amt } := by
  induction l with
  | nil => rfl
  | cons c rest ih =>
    by_cases h : c.account_id = a
    · simp [List.find?_cons, h]
    · simp [List.find?_cons, h, ih]

/-- The balance statement of `credit_deposit` adds the amount to the
account's balance (and leaves accounts without a row untouched). -/
theorem balanceOf_addBalance (db : DB) (a : Nat) (amt : ℚ) :
    balanceOf (addBalance db a amt) a = (balanceOf db a).map fun b => b + amt := by
  simp only [balanceOf, addBalance, find?_map_balance, Option.map_map]
  rfl

/-- The ledger insert grows the account's ledger sum by exactly the inserted
amount. -/
theorem ledgerSum_insertLedgerEntry (db : DB) (a : Nat) (amt : ℚ)
    (chain tx_hash : String) (deposit_id : Nat) :
    ledgerSum (insertLedgerEntry db a amt chain tx_hash deposit_id) a =
      ledgerSum db a + amt := by
  simp [ledgerSum, insertLedgerEntry, List.filter_append]

/-- C3: `credit_deposit` is all-or-nothing: any interrupted or failing step
rolls the transaction back, leaving balance, ledger and deposit status
exactly as before the call; a successful call appends exactly one ledger
entry whose amount equals the balance increment, marks the deposit credited,
and preserves the invariant that the account's balance equals the sum of its
ledger entries. -/
theorem c3_credit_deposit_atomic_ledger (fail : Option TxFailure) (db : DB)
    (deposit_id account_id : Nat) (amount : ℚ) (chain tx_hash : String) (now : Nat)
    (hinv : balanceMatchesLedger db account_id = true) :
    (∀ e, (credit_deposit fail db deposit_id account_id amount chain tx_hash now).1 = .error e →
      (credit_deposit fail db deposit_id account_id amount chain tx_hash now).2 = db) ∧
    ((credit_deposit fail db deposit_id account_id amount chain tx_hash now).1 = .ok () →
      (credit_deposit fail db deposit_id account_id amount chain tx_hash now).2.transactions =
        db.transactions ++
          [⟨account_id, amount, "purchase",
            "deposit " ++ toString amount ++ " via " ++ chain,
            some chain, some tx_hash, some deposit_id⟩] ∧
      balanceOf (credit_deposit fail db deposit_id account_id amount chain tx_hash now).2
          account_id =
        (balanceOf db account_id).map (fun b => b + amount) ∧
      (∀ d ∈ (credit_deposit fail db deposit_id account_id amount chain tx_hash now).2.deposits,
        d.id = deposit_id → d.status = .credited) ∧
      balanceMatchesLedger
        (credit_deposit fail db deposit_id account_id amount chain tx_hash now).2
        account_id = true) := by
  match fail with
  | some f =>
    cases f <;>
      exact ⟨fun _ _ => rfl, fun h => by simp [credit_deposit] at h⟩
  | none =>
    refine ⟨fun e h => by simp [credit_deposit] at h, fun _ => ?_⟩
    refine ⟨rfl, ?_, ?_, ?_⟩
    · show balanceOf (insertLedgerEntry (addBalance (markDepositCredited db deposit_id now)
        account_id amount) account_id amount chain tx_hash deposit_id) account_id = _
      have h1 : balanceOf (insertLedgerEntry (addBalance (markDepositCredited db deposit_id now)
          account_id amount) account_id amount chain tx_hash deposit_id) account_id =
          balanceOf (addBalance (markDepositCredited db deposit_id now) account_id amount)
            account_id := rfl
      rw [h1, balanceOf_addBalance]
      rfl
    · intro d hd hid
      have hd2 : d ∈ (markDepositCredited db deposit_id now).deposits := hd
      simp only [markDepositCredited, List.mem_map] at hd2
      obtain ⟨d0, _, heq⟩ := hd2
      by_cases h0 : d0.id = deposit_id
      · rw [if_pos h0] at heq
        rw [← heq]
      · rw [if_neg h0] at heq
        rw [← heq] at hid
        exact absurd hid h0
    · show balanceMatchesLedger (insertLedgerEntry (addBalance
        (markDepositCredited db deposit_id now) account_id amount) account_id amount chain
        tx_hash deposit_id) account_id = true
      unfold balanceMatchesLedger at hinv ⊢
      have hb : balanceOf (insertLedgerEntry (addBalance (markDepositCredited db deposit_id now)
          account_id amount) account_id amount chain tx_hash deposit_id) account_id =
          (balanceOf db account_id).map (fun b => b + amount) := by
        have h1 : balanceOf (insertLedgerEntry (addBalance
            (markDepositCredited db deposit_id now) account_id amount) account_id amount chain
            tx_hash deposit_id) account_id =
            balanceOf (addBalance (markDepositCredited db deposit_id now) account_id amount)
              account_id := rfl
        rw [h1, balanceOf_addBalance]
        rfl
      have hs : ledgerSum (insertLedgerEntry (addBalance
          (markDepositCredited db deposit_id now) account_id amount) account_id amount chain
          tx_hash deposit_id) account_id = ledgerSum db account_id + amount := by
        rw [ledgerSum_insertLedgerEntry]
        rfl
      rw [hb, hs]
      cases hdb : balanceOf db account_id with
      | none => rfl
      | some b =>
        rw [hdb] at hinv
        have hbe : b = ledgerSum db account_id := of_decide_eq_true hinv
        simp [hbe]

/-- Witness for C3: a store with a zero balance, an empty ledger and one
confirmed deposit; the claim is instantiated on the successful path. -/
theorem c3_credit_deposit_atomic_ledger_witness :
    (∀ e, (credit_deposit none c1db 1 7 10 "polkadot_assethub" "0xabc" 130).1 = .error e →
      (credit_deposit none c1db 1 7 10 "polkadot_assethub" "0xabc" 130).2 = c1db) ∧
    ((credit_deposit none c1db 1 7 10 "polkadot_assethub" "0xabc" 130).1 = .ok () →
      (credit_deposit none c1db 1 7 10 "polkadot_assethub" "0xabc" 130).2.transactions =
        c1db.transactions ++
          [⟨7, 10, "purchase", "deposit " ++ toString (10 : ℚ) ++ " via " ++ "polkadot_assethub",
            some "polkadot_assethub", some "0xabc", some 1⟩] ∧
      balanceOf (credit_deposit none c1db 1 7 10 "polkadot_assethub" "0xabc" 130).2 7 =
        (balanceOf c1db 7).map (fun b => b + 10) ∧
      (∀ d ∈ (credit_deposit none c1db 1 7 10 "polkadot_assethub" "0xabc" 130).2.deposits,
        d.id = 1 → d.status = .credited) ∧
      balanceMatchesLedger (credit_deposit none c1db 1 7 10 "polkadot_assethub" "0xabc" 130).2
        7 = true) :=
  c3_credit_deposit_atomic_ledger none c1db 1 7 10 "polkadot_assethub" "0xabc" 130 (by decide)


/-! ## C4: the deposit lifecycle only moves forward -/

/-- Deposits advance from one table state to another: no row is deleted
(every position of the old table is still a row of the new one), ids are
stable, and no row's status moves backwards in the
`pending → confirmed → credited` order. -/
def DepositsAdvance (l l2 : List DepositRow) : Prop :=
  l.length ≤ l2.length ∧
  ∀ (i : Nat) (h1 : i < l.length) (h2 : i < l2.length),
    (l2.get ⟨i, h2⟩).id = (l.get ⟨i, h1⟩).id ∧
    (l.get ⟨i, h1⟩).status.rank ≤ (l2.get ⟨i, h2⟩).status.rank

theorem DepositStatus.rank_le_two (s : DepositStatus) : s.rank ≤ 2 := by
  cases s <;> simp [DepositStatus.rank]

theorem depositsAdvance_refl (l : List DepositRow) : DepositsAdvance l l :=
  ⟨le_refl _, fun _ _ _ => ⟨rfl, le_refl _⟩⟩

theorem depositsAdvance_trans {a b c : List DepositRow}
    (h1 : DepositsAdvance a b) (h2 : DepositsAdvance b c) : DepositsAdvance a c := by
  refine ⟨le_trans h1.1 h2.1, fun i ha hc => ?_⟩
  have hb : i < b.length := lt_of_lt_of_le ha h1.1
  obtain ⟨hid1, hr1⟩ := h1.2 i ha hb
  obtain ⟨hid2, hr2⟩ := h2.2 i hb hc
  exact ⟨hid2.trans hid1, le_trans hr1 hr2⟩

theorem depositsAdvance_map (l : List DepositRow) (f : DepositRow → DepositRow)
    (hf : ∀ (i : Nat) (h : i < l.length),
      (f (l.get ⟨i, h⟩)).id = (l.get ⟨i, h⟩).id ∧
      (l.get ⟨i, h⟩).status.rank ≤ (f (l.get ⟨i, h⟩)).status.rank) :
    DepositsAdvance l (l.map f) := by
  refine ⟨by simp, fun i h1 h2 => ?_⟩
  rw [List.get_map]
  exact hf i h1

theorem depositsAdvance_append (l r : List DepositRow) : DepositsAdvance l (l ++ r) := by
  refine ⟨by simp, fun i h1 h2 => ?_⟩
  rw [List.get_append i h1]
  exact ⟨rfl, le_refl _⟩

/-- The credited update never moves a status backwards (credited is the top
of the order) and never changes an id. -/
theorem depositsAdvance_markCredited (db : DB) (deposit_id now : Nat) :
    DepositsAdvance db.deposits (markDepositCredited db deposit_id now).deposits := by
  apply depositsAdvance_map
  intro i h
  by_cases hc : (db.deposits.get ⟨i, h⟩).id = deposit_id
  · rw [if_pos hc]
    exact ⟨rfl, DepositStatus.rank_le_two _⟩
  · rw [if_neg hc]
    exact ⟨rfl, le_refl _⟩

/-- `credit_deposit` advances the deposits table for every failure oracle. -/
theorem depositsAdvance_credit (fail : Option TxFailure) (db : DB)
    (deposit_id account_id : Nat) (amount : ℚ) (chain tx_hash : String) (now : Nat) :
    DepositsAdvance db.deposits
      (credit_deposit fail db deposit_id account_id amount chain tx_hash now).2.deposits := by
  match fail with
  | some f => cases f <;> exact depositsAdvance_refl _
  | none => exact depositsAdvance_markCredited db deposit_id now

/-- `credit_deposit` never changes the number of deposit rows. -/
theorem credit_deposits_length (fail : Option TxFailure) (db : DB)
    (deposit_id account_id : Nat) (amount : ℚ) (chain tx_hash : String) (now : Nat) :
    (credit_deposit fail db deposit_id account_id amount chain tx_hash now).2.deposits.length =
      db.deposits.length := by
  match fail with
  | some f => cases f <;> rfl
  | none => simp [credit_deposit, markDepositCredited, addBalance, insertLedgerEntry]

/-- A row whose id differs from the credited one is untouched by
`credit_deposit`. -/
theorem credit_get_of_ne (fail : Option TxFailure) (db : DB)
    (deposit_id account_id : Nat) (amount : ℚ) (chain tx_hash : String) (now : Nat)
    (j : Nat) (h1 : j < db.deposits.length)
    (h2 : j < (credit_deposit fail db deposit_id account_id amount chain
      tx_hash now).2.deposits.length)
    (hne : (db.deposits.get ⟨j, h1⟩).id ≠ deposit_id) :
    (credit_deposit fail db deposit_id account_id amount chain
      tx_hash now).2.deposits.get ⟨j, h2⟩ = db.deposits.get ⟨j, h1⟩ := by
  match fail with
  | some f => cases f <;> rfl
  | none =>
    show (markDepositCredited db deposit_id now).deposits.get ⟨j, _⟩ = _
    simp only [markDepositCredited]
    rw [List.get_map, if_neg hne]

/-- A row whose id differs is untouched by the confirm statement. -/
theorem confirm_get_of_ne (db : DB) (deposit_id : Nat)
    (j : Nat) (h1 : j < db.deposits.length)
    (h2 : j < (confirmDeposit db deposit_id).deposits.length)
    (hne : (db.deposits.get ⟨j, h1⟩).id ≠ deposit_id) :
    (confirmDeposit db deposit_id).deposits.get ⟨j, h2⟩ = db.deposits.get ⟨j, h1⟩ := by
  simp only [confirmDeposit]
  rw [List.get_map, if_neg hne]

/-- With unique ids, a position carrying a member row's id carries that very
row. -/
theorem row_with_id_eq (db0 : DB) (hnodup : (db0.deposits.map fun d => d.id).Nodup)
    (d : DepositRow) (hd : d ∈ db0.deposits) (j : Nat) (hj : j < db0.deposits.length)
    (hid : (db0.deposits.get ⟨j, hj⟩).id = d.id) : db0.deposits.get ⟨j, hj⟩ = d := by
  obtain ⟨⟨k, hk⟩, hgk⟩ := List.mem_iff_get.mp hd
  have hjm : j < (db0.deposits.map fun d => d.id).length := by simpa using hj
  have hkm : k < (db0.deposits.map fun d => d.id).length := by simpa using hk
  have hmap : (db0.deposits.map fun d => d.id).get ⟨j, hjm⟩ =
      (db0.deposits.map fun d => d.id).get ⟨k, hkm⟩ := by
    rw [List.get_map, List.get_map]
    show (db0.deposits.get ⟨j, hj⟩).id = (db0.deposits.get ⟨k, hk⟩).id
    rw [hid, hgk]
  have hfin := (List.Nodup.get_inj_iff hnodup).mp hmap
  have hjk : j = k := congrArg Fin.val hfin
  subst hjk
  exact hgk


/-- The sweep loop advances the deposits table: processing any worklist of
pending rows of the original table (with the table's ids unique, as the
primary key guarantees) never deletes a row, never changes an id, and never
moves a status backwards, whatever failures the inner crediting transactions
hit. -/
theorem sweep_fold_advance (failFor : Nat → Option TxFailure) (now : Nat) (db0 : DB)
    (hnodup : (db0.deposits.map fun d => d.id).Nodup)
    (todo : List DepositRow) :
    ∀ (acc : DB),
      DepositsAdvance db0.deposits acc.deposits →
      acc.deposits.length = db0.deposits.length →
      (∀ d ∈ todo, d ∈ db0.deposits ∧ d.status = .pending) →
      (∀ d ∈ todo, ∀ (i : Nat) (hI : i < db0.deposits.length) (hA : i < acc.deposits.length),
        (db0.deposits.get ⟨i, hI⟩).id = d.id →
          acc.deposits.get ⟨i, hA⟩ = db0.deposits.get ⟨i, hI⟩) →
      List.Pairwise (fun d1 d2 => d1.id ≠ d2.id) todo →
      DepositsAdvance db0.deposits ((todo.foldl (sweepStep failFor now) acc).deposits) := by
  induction todo with
  | nil => intro acc hadv _ _ _ _; exact hadv
  | cons d rest ih =>
    intro acc hadv hlen htodo huntouched hpair
    rw [List.foldl_cons]
    have hdmem : d ∈ db0.deposits := (htodo d (List.mem_cons_self d rest)).1
    have hdpend : d.status = .pending := (htodo d (List.mem_cons_self d rest)).2
    have hpairrel : ∀ d2 ∈ rest, d.id ≠ d2.id := (List.pairwise_cons.mp hpair).1
    have hpairrest := (List.pairwise_cons.mp hpair).2
    have htodorest : ∀ d2 ∈ rest, d2 ∈ db0.deposits ∧ d2.status = .pending :=
      fun d2 h => htodo d2 (List.mem_cons_of_mem d h)
    -- the key fact: any row of acc carrying d's id is d itself
    have hkey : ∀ (j : Nat) (hA : j < acc.deposits.length),
        (acc.deposits.get ⟨j, hA⟩).id = d.id → acc.deposits.get ⟨j, hA⟩ = d := by
      intro j hA hid
      have hI : j < db0.deposits.length := hlen ▸ hA
      have hid0 : (db0.deposits.get ⟨j, hI⟩).id = d.id := by
        have := (hadv.2 j hI hA).1
        rw [← this]
        exact hid
      have hrow := row_with_id_eq db0 hnodup d hdmem j hI hid0
      have huni := huntouched d (List.mem_cons_self d rest) j hI hA hid0
      rw [huni, hrow]
    -- case split on the step
    cases hfind : acc.deposits.find? (fun row => decide (row.id = d.id)) with
    | none =>
      have hstepval : sweepStep failFor now acc d = acc := by
        unfold sweepStep
        rw [hfind]
      rw [hstepval]
      exact ih acc hadv hlen htodorest
        (fun d2 h => huntouched d2 (List.mem_cons_of_mem d h)) hpairrest
    | some row =>
      by_cases htime : now - row.created_at > 120
      · have hstepval : sweepStep failFor now acc d =
            (credit_deposit (failFor d.id) (confirmDeposit acc d.id) d.id d.account_id
              d.amount "polkadot_assethub" d.tx_hash now).2 := by
          unfold sweepStep
          rw [hfind]
          show (if now - row.created_at > 120 then _ else acc) = _
          rw [if_pos htime]
        rw [hstepval]
        -- the state after confirm + credit
        have hlc : (confirmDeposit acc d.id).deposits.length = acc.deposits.length := by
          simp [confirmDeposit]
        have hadv1 : DepositsAdvance acc.deposits (confirmDeposit acc d.id).deposits := by
          apply depositsAdvance_map
          intro j h
          by_cases hc : (acc.deposits.get ⟨j, h⟩).id = d.id
          · rw [if_pos hc]
            refine ⟨rfl, ?_⟩
            rw [hkey j h hc, hdpend]
            simp [DepositStatus.rank]
          · rw [if_neg hc]
            exact ⟨rfl, le_refl _⟩
        have hadv2 := depositsAdvance_credit (failFor d.id) (confirmDeposit acc d.id)
          d.id d.account_id d.amount "polkadot_assethub" d.tx_hash now
        have hadvA := depositsAdvance_trans hadv (depositsAdvance_trans hadv1 hadv2)
        have hlenA : (credit_deposit (failFor d.id) (confirmDeposit acc d.id) d.id
            d.account_id d.amount "polkadot_assethub" d.tx_hash now).2.deposits.length =
            db0.deposits.length := by
          rw [credit_deposits_length, hlc, hlen]
        refine ih _ hadvA hlenA htodorest ?_ hpairrest
        intro d2 hd2 i hI hA2 hid0
        have hA : i < acc.deposits.length := by rw [hlen]; exact hI
        have hAc : i < (confirmDeposit acc d.id).deposits.length := by rw [hlc]; exact hA
        have hne : d2.id ≠ d.id := Ne.symm (hpairrel d2 hd2)
        have hacc := huntouched d2 (List.mem_cons_of_mem d hd2) i hI hA hid0
        have haccid : (acc.deposits.get ⟨i, hA⟩).id ≠ d.id := by
          rw [hacc, hid0]
          exact hne
        have hconf := confirm_get_of_ne acc d.id i hA hAc haccid
        have hconfid : ((confirmDeposit acc d.id).deposits.get ⟨i, hAc⟩).id ≠ d.id := by
          rw [hconf]
          exact haccid
        have hcred := credit_get_of_ne (failFor d.id) (confirmDeposit acc d.id) d.id
          d.account_id d.amount "polkadot_assethub" d.tx_hash now i hAc hA2 hconfid
        rw [hcred, hconf, hacc]
      · have hstepval : sweepStep failFor now acc d = acc := by
          unfold sweepStep
          rw [hfind]
          show (if now - row.created_at > 120 then _ else acc) = _
          rw [if_neg htime]
        rw [hstepval]
        exact ih acc hadv hlen htodorest
          (fun d2 h => huntouched d2 (List.mem_cons_of_mem d h)) hpairrest

/-- The reconciliation sweep advances the deposits table whenever the
table's ids are unique. -/
theorem depositsAdvance_check_pending (failFor : Nat → Option TxFailure) (db : DB)
    (now : Nat) (hnodup : (db.deposits.map fun d => d.id).Nodup) :
    DepositsAdvance db.deposits (check_pending_deposits failFor db now).deposits := by
  unfold check_pending_deposits
  apply sweep_fold_advance failFor now db hnodup _ db (depositsAdvance_refl _) rfl
  · intro d hd
    have hmem := List.mem_of_mem_filter hd
    have hprop := List.of_mem_filter hd
    have := of_decide_eq_true hprop
    exact ⟨hmem, this.2⟩
  · intro d _ i hI hA _
    rfl
  · have hsub : ((db.deposits.filter fun d =>
        decide (d.chain = "polkadot_assethub" ∧ d.status = .pending)).map
          fun d => d.id).Sublist (db.deposits.map fun d => d.id) :=
      List.Sublist.map _ (List.filter_sublist _)
    have hnd := List.Nodup.sublist hsub hnodup
    have := List.pairwise_map.mp hnd
    exact this


/-- Manual deposit recording (AssetHub variant) advances the deposits
table. -/
theorem depositsAdvance_record_assethub (db : DB) (fresh_id account_id : Nat)
    (tx_hash asset : String) (amount : ℚ) (now : Nat) :
    DepositsAdvance db.deposits
      (AssetHubListener.record_deposit db fresh_id account_id tx_hash asset
        amount now).2.deposits := by
  unfold AssetHubListener.record_deposit
  cases h : db.deposits.any (fun d => d.tx_hash = tx_hash) with
  | true => simp only [if_pos]; exact depositsAdvance_refl _
  | false =>
    simp only [Bool.false_eq_true, if_false]
    exact depositsAdvance_append _ _

/-- Manual deposit recording (Penumbra variant) advances the deposits
table. -/
theorem depositsAdvance_record_penumbra (db : DB) (fresh_id account_id : Nat)
    (tx_hash : String) (amount : ℚ) (now : Nat) :
    DepositsAdvance db.deposits
      (PenumbraListener.record_deposit db fresh_id account_id tx_hash
        amount now).2.deposits := by
  unfold PenumbraListener.record_deposit
  cases h : db.deposits.any (fun d => d.tx_hash = tx_hash) with
  | true => simp only [if_pos]; exact depositsAdvance_refl _
  | false =>
    simp only [Bool.false_eq_true, if_false]
    exact depositsAdvance_append _ _

/-- The Penumbra deposit callback advances the deposits table for every
failure oracle. -/
theorem depositsAdvance_on_deposit (db : DB) (fresh_id : Nat)
    (fail : Option TxFailure) (now : Nat) (dep : HwDeposit) :
    DepositsAdvance db.deposits
      (PenumbraDepositHandler.on_deposit db fresh_id fail now dep).2.deposits := by
  unfold PenumbraDepositHandler.on_deposit
  cases hfind : db.payment_addresses.find? (fun r =>
      decide (r.chain = "penumbra" ∧ r.penumbra_index = some (dep.derivation_index : Int))) with
  | none => exact depositsAdvance_refl _
  | some row =>
    cases hdup : db.deposits.any (fun d => d.tx_hash = dep.tx_hash) with
    | true => simp only [if_pos]; exact depositsAdvance_refl _
    | false =>
      simp only [Bool.false_eq_true, if_false]
      have h1 := depositsAdvance_append db.deposits
        [{ id := fresh_id, account_id := row.account_id, chain := "penumbra",
           tx_hash := dep.tx_hash, asset := "USDC", amount := dep.amount,
           status := .confirmed, confirmations := 1, created_at := now,
           credited_at := none, to_address := some dep.to_addr }]
      have h2 := depositsAdvance_credit fail
        { db with deposits := db.deposits ++
            [{ id := fresh_id, account_id := row.account_id, chain := "penumbra",
               tx_hash := dep.tx_hash, asset := "USDC", amount := dep.amount,
               status := .confirmed, confirmations := 1, created_at := now,
               credited_at := none, to_address := some dep.to_addr }] }
        fresh_id row.account_id dep.amount "penumbra" dep.tx_hash now
      exact depositsAdvance_trans h1 h2

/-- C4 (amended): every embedded operation that touches the `deposits` table
moves each row's status only forward in the order
`pending → confirmed → credited`, never reverses it, never changes a row's
id and never deletes a row (for the sweep, under the primary-key uniqueness
of ids); however `credit_deposit` performs the credited transition from any
current status — it carries no only-from-`confirmed` guard. -/
theorem c4_deposit_status_forward_only :
    (∀ (fail : Option TxFailure) (db : DB) (deposit_id account_id : Nat) (amount : ℚ)
       (chain tx_hash : String) (now : Nat),
       DepositsAdvance db.deposits
         (credit_deposit fail db deposit_id account_id amount chain tx_hash now).2.deposits) ∧
    (∀ (failFor : Nat → Option TxFailure) (db : DB) (now : Nat),
       (db.deposits.map fun d => d.id).Nodup →
       DepositsAdvance db.deposits (check_pending_deposits failFor db now).deposits) ∧
    (∀ (db : DB) (fresh_id account_id : Nat) (tx_hash asset : String) (amount : ℚ) (now : Nat),
       DepositsAdvance db.deposits
         (AssetHubListener.record_deposit db fresh_id account_id tx_hash asset
           amount now).2.deposits) ∧
    (∀ (db : DB) (fresh_id account_id : Nat) (tx_hash : String) (amount : ℚ) (now : Nat),
       DepositsAdvance db.deposits
         (PenumbraListener.record_deposit db fresh_id account_id tx_hash
           amount now).2.deposits) ∧
    (∀ (db : DB) (fresh_id : Nat) (fail : Option TxFailure) (now : Nat) (dep : HwDeposit),
       DepositsAdvance db.deposits
         (PenumbraDepositHandler.on_deposit db fresh_id fail now dep).2.deposits) :=
  ⟨depositsAdvance_credit,
   depositsAdvance_check_pending,
   depositsAdvance_record_assethub,
   depositsAdvance_record_penumbra,
   depositsAdvance_on_deposit⟩

/-- Witness for C4 (amended): the sweep over a store holding one pending
deposit, at a time past the two-minute threshold, with the inner crediting
transaction once failing at commit and once succeeding. -/
theorem c4_deposit_status_forward_only_witness :
    DepositsAdvance c4db.deposits
      (check_pending_deposits (fun _ => none) c4db 500).deposits ∧
    DepositsAdvance c4db.deposits
      (check_pending_deposits (fun _ => some .atCommit) c4db 500).deposits :=
  ⟨c4_deposit_status_forward_only.2.1 (fun _ => none) c4db 500 (by decide),
   c4_deposit_status_forward_only.2.1 (fun _ => some .atCommit) c4db 500 (by decide)⟩


/-! ## C6: rotation monotonicity -/

/-- Iterated rotation: `rotateIter l db a k` is the store after `k`
`rotate_address` calls for account `a`. -/
def rotateIter (l : AssetHubListener) (db : DB) (account_id : Nat) : Nat → DB
  | 0 => db
  | k + 1 => (l.rotate_address (rotateIter l db account_id k) account_id).2

/-- The indices `0, 1, …, n-1` as integers. -/
def rangeIdx (n : Nat) : List Int := (List.range n).map fun i : Nat => (i : Int)

/-- The shape of an account's address rows after its initial address and `m`
rotations: in table order the derivation indices are exactly `0 … m` and
exactly the newest row is active. -/
def AddressInv (db : DB) (account_id m : Nat) : Prop :=
  ((addressRowsFor db account_id assetChain).map fun r => r.derivation_index) =
    rangeIdx (m + 1) ∧
  ((addressRowsFor db account_id assetChain).map fun r => r.is_active) =
    List.replicate m false ++ [true]

theorem rangeIdx_succ (n : Nat) : rangeIdx (n + 1) = rangeIdx n ++ [(n : Int)] := by
  unfold rangeIdx
  rw [List.range_succ, List.map_append]
  rfl

theorem rangeIdx_length (n : Nat) : (rangeIdx n).length = n := by
  unfold rangeIdx
  rw [List.length_map, List.length_range]

/-- SQL MAX over the indices `0 … n`. -/
theorem foldMax_rangeIdx (n : Nat) :
    (rangeIdx (n + 1)).foldl
      (fun acc i =>
        match acc with
        | none => some i
        | some m => some (max m i))
      none = some (n : Int) := by
  induction n with
  | zero => rfl
  | succ n ih =>
    rw [rangeIdx_succ (n + 1), List.foldl_append, ih]
    show some (max (n : Int) ((n + 1 : Nat) : Int)) = some ((n + 1 : Nat) : Int)
    rw [max_eq_right]
    exact_mod_cast Nat.le_succ n

/-- Filtering commutes with a map that does not affect the predicate. -/
theorem filter_map_comm {α : Type} (p : α → Bool) (f : α → α)
    (hf : ∀ x, p (f x) = p x) (l : List α) :
    (l.map f).filter p = (l.filter p).map f := by
  induction l with
  | nil => rfl
  | cons x rest ih =>
    simp only [List.map_cons, List.filter_cons, hf x]
    cases hx : p x with
    | true => simp [ih]
    | false => simp [ih]

/-- Deactivation rewrites the account's rows to their inactive copies. -/
theorem addressRowsFor_deactivate (db : DB) (account_id : Nat) :
    addressRowsFor (deactivateAddresses db account_id assetChain) account_id assetChain =
      (addressRowsFor db account_id assetChain).map fun r => { r with is_active := false } := by
  unfold addressRowsFor deactivateAddresses
  show ((db.payment_addresses.map fun r =>
      if r.account_id = account_id ∧ r.chain = assetChain then { r with is_active := false }
      else r).filter fun r => decide (r.account_id = account_id ∧ r.chain = assetChain)) = _
  have hf : ∀ x : AddressRow,
      (fun r : AddressRow => decide (r.account_id = account_id ∧ r.chain = assetChain))
        ((fun r : AddressRow =>
          if r.account_id = account_id ∧ r.chain = assetChain then { r with is_active := false }
          else r) x) =
      (fun r : AddressRow => decide (r.account_id = account_id ∧ r.chain = assetChain)) x := by
    intro x
    beta_reduce
    by_cases hx : x.account_id = account_id ∧ x.chain = assetChain
    · rw [if_pos hx]
    · rw [if_neg hx]
  rw [filter_map_comm _ _ hf]
  apply List.map_congr_left
  intro r hr
  have hp : r.account_id = account_id ∧ r.chain = assetChain := by
    simpa using List.of_mem_filter hr
  rw [if_pos hp]

/-- Appending a row of the account extends its row list. -/
theorem addressRowsFor_insert (db : DB) (account_id : Nat) (row : AddressRow)
    (h1 : row.account_id = account_id) (h2 : row.chain = assetChain) :
    addressRowsFor { db with payment_addresses := db.payment_addresses ++ [row] }
        account_id assetChain =
      addressRowsFor db account_id assetChain ++ [row] := by
  unfold addressRowsFor
  rw [List.filter_append]
  congr 1
  rw [List.filter_cons]
  simp [h1, h2]

/-- One successful rotation succeeds and extends the invariant by one
index. -/
theorem rotate_step (l : AssetHubListener) (s : String)
    (hseed : l.deposit_wallet_seed = some s) (db : DB) (account_id m : Nat)
    (hinv : AddressInv db account_id m)
    (hmax : (m : Int) + 1 < l.max_addresses_per_user) :
    (∃ addr, (l.rotate_address db account_id).1 = .ok addr) ∧
    AddressInv (l.rotate_address db account_id).2 account_id (m + 1) := by
  have hrows : (addressRowsFor db account_id assetChain).length = m + 1 := by
    have h1 := congrArg List.length hinv.1
    rw [List.length_map, rangeIdx_length] at h1
    exact h1
  have hcount : AssetHubListener.count_addresses db account_id = ((m + 1 : Nat) : Int) := by
    unfold AssetHubListener.count_addresses countAddressesFor
    rw [hrows]
  have hge : ¬(AssetHubListener.count_addresses db account_id ≥ l.max_addresses_per_user) := by
    intro hcon
    rw [hcount] at hcon
    push_cast at hcon
    omega
  have hmaxidx : maxDerivIndex db account_id assetChain = some (m : Int) := by
    unfold maxDerivIndex
    rw [hinv.1]
    exact foldMax_rangeIdx m
  have htn : (((m : Int)) + 1).toNat = m + 1 := by omega
  have hrot : l.rotate_address db account_id =
      l.derive_and_store_address (deactivateAddresses db account_id assetChain)
        account_id (m + 1) := by
    simp only [AssetHubListener.rotate_address]
    rw [if_neg hge, hmaxidx]
    show l.derive_and_store_address _ account_id (((m : Int)) + 1).toNat = _
    rw [htn]
  rw [hrot]
  simp only [AssetHubListener.derive_and_store_address, hseed]
  refine ⟨⟨_, rfl⟩, ?_, ?_⟩
  · rw [addressRowsFor_insert _ _ _ rfl rfl, addressRowsFor_deactivate,
      List.map_append, List.map_map]
    have hidx : ((addressRowsFor db account_id assetChain).map
        ((fun r => r.derivation_index) ∘ fun r => { r with is_active := false })) =
        (addressRowsFor db account_id assetChain).map fun r => r.derivation_index := rfl
    rw [hidx, hinv.1, rangeIdx_succ (m + 1)]
    rfl
  · rw [addressRowsFor_insert _ _ _ rfl rfl, addressRowsFor_deactivate,
      List.map_append, List.map_map]
    have hact : ((addressRowsFor db account_id assetChain).map
        ((fun r => r.is_active) ∘ fun r => { r with is_active := false })) =
        List.replicate (m + 1) false := by
      show (addressRowsFor db account_id assetChain).map (Function.const AddressRow false) =
        List.replicate (m + 1) false
      rw [List.map_const, hrows]
    rw [hact]
    rfl

/-- Iterated rotation keeps the invariant and every call succeeds. -/
theorem rotateIter_inv (l : AssetHubListener) (s : String)
    (hseed : l.deposit_wallet_seed = some s) (account_id : Nat) :
    ∀ (k : Nat) (db : DB) (m : Nat), AddressInv db account_id m →
      ((m + k : Nat) : Int) < l.max_addresses_per_user →
      AddressInv (rotateIter l db account_id k) account_id (m + k) ∧
      (∀ j, j < k → ∃ addr,
        (l.rotate_address (rotateIter l db account_id j) account_id).1 = .ok addr) := by
  intro k
  induction k with
  | zero =>
    intro db m hinv _
    exact ⟨hinv, fun j hj => absurd hj (Nat.not_lt_zero j)⟩
  | succ k ih =>
    intro db m hinv hmax
    have hmaxk : ((m + k : Nat) : Int) < l.max_addresses_per_user := by
      push_cast at hmax ⊢
      omega
    obtain ⟨hinvk, hok⟩ := ih db m hinv hmaxk
    have hstep := rotate_step l s hseed (rotateIter l db account_id k) account_id (m + k)
      hinvk (by push_cast at hmax ⊢; omega)
    refine ⟨?_, ?_⟩
    · show AddressInv (l.rotate_address (rotateIter l db account_id k) account_id).2
        account_id (m + (k + 1))
      have : m + (k + 1) = (m + k) + 1 := by omega
      rw [this]
      exact hstep.2
    · intro j hj
      rcases Nat.lt_succ_iff_lt_or_eq.mp hj with hlt | heq
      · exact hok j hlt
      · subst heq
        exact hstep.1


theorem rangeIdx_nodup (n : Nat) : (rangeIdx n).Nodup :=
  List.Nodup.map (fun a b h => Nat.cast_injective h) (List.nodup_range n)

/-- C6 (amended): starting from an account whose initial deposit address
exists (one active row at index 0), after `k` successful `rotate_address`
calls — all succeeding as long as `k` stays below the cap and a seed is
configured — `list_addresses` returns `k + 1` rows whose derivation indices
are pairwise distinct and strictly decreasing in the returned newest-first
order (equivalently strictly increasing in creation order, never reused),
with exactly one row active. -/
theorem c6_rotation_monotonicity (l : AssetHubListener) (db : DB)
    (account_id k : Nat) (s : String) (hseed : l.deposit_wallet_seed = some s)
    (hinit : AddressInv db account_id 0)
    (hmax : (k : Int) < l.max_addresses_per_user) :
    (∀ j, j < k → ∃ addr,
      (l.rotate_address (rotateIter l db account_id j) account_id).1 = .ok addr) ∧
    (AssetHubListener.list_addresses (rotateIter l db account_id k) account_id).length =
      k + 1 ∧
    List.Pairwise (fun x y : String × Int × Bool => y.2.1 < x.2.1)
      (AssetHubListener.list_addresses (rotateIter l db account_id k) account_id) ∧
    ((AssetHubListener.list_addresses (rotateIter l db account_id k) account_id).filter
      fun t => t.2.2).length = 1 := by
  have hzk : ((0 + k : Nat) : Int) < l.max_addresses_per_user := by simpa using hmax
  obtain ⟨hinv, hok⟩ := rotateIter_inv l s hseed account_id k db 0 hinit hzk
  rw [Nat.zero_add] at hinv
  have hrowlen : (addressRowsFor (rotateIter l db account_id k) account_id
      assetChain).length = k + 1 := by
    have h1 := congrArg List.length hinv.1
    rw [List.length_map, rangeIdx_length] at h1
    exact h1
  have hperm := List.perm_insertionSort addrDesc
    (addressRowsFor (rotateIter l db account_id k) account_id assetChain)
  have hsorted := List.sorted_insertionSort addrDesc
    (addressRowsFor (rotateIter l db account_id k) account_id assetChain)
  have hone : List.countP (fun r => r.is_active)
      (addressRowsFor (rotateIter l db account_id k) account_id assetChain) = 1 := by
    have h1 : List.countP (fun r => r.is_active)
        (addressRowsFor (rotateIter l db account_id k) account_id assetChain) =
        List.countP (fun b => b)
          ((addressRowsFor (rotateIter l db account_id k) account_id assetChain).map
            fun r => r.is_active) := by
      rw [List.countP_map]
      rfl
    rw [h1, hinv.2, List.countP_append]
    have h2 : List.countP (fun b => b) (List.replicate k false) = 0 := by
      rw [List.countP_eq_zero]
      intro a ha
      rw [List.eq_of_mem_replicate ha]
      simp
    rw [h2]
    rfl
  refine ⟨hok, ?_, ?_, ?_⟩
  · show ((addressRowsFor (rotateIter l db account_id k) account_id
        assetChain).insertionSort addrDesc |>.map
        fun r => (r.address, r.derivation_index, r.is_active)).length = k + 1
    rw [List.length_map, hperm.length_eq, hrowlen]
  · have hnr : ((addressRowsFor (rotateIter l db account_id k) account_id
        assetChain).map fun r => r.derivation_index).Nodup := by
      rw [hinv.1]
      exact rangeIdx_nodup (k + 1)
    have hnod : (((addressRowsFor (rotateIter l db account_id k) account_id
        assetChain).insertionSort addrDesc).map fun r => r.derivation_index).Nodup :=
      ((hperm.map fun r => r.derivation_index).nodup_iff).mpr hnr
    have hpairne := List.pairwise_map.mp hnod
    have hgt : List.Pairwise
        (fun x y : AddressRow => y.derivation_index < x.derivation_index)
        ((addressRowsFor (rotateIter l db account_id k) account_id
          assetChain).insertionSort addrDesc) := by
      refine (hsorted.and hpairne).imp ?_
      rintro a b ⟨hle, hne⟩
      exact lt_of_le_of_ne hle (Ne.symm hne)
    exact List.pairwise_map.mpr hgt
  · rw [← List.countP_eq_length_filter]
    show List.countP (fun t => t.2.2)
      (((addressRowsFor (rotateIter l db account_id k) account_id
        assetChain).insertionSort addrDesc).map
        fun r => (r.address, r.derivation_index, r.is_active)) = 1
    rw [List.countP_map, hperm.countP_eq]
    exact hone

/-- Listener used by the C6 artifacts: default cap of five, a 32-byte hex
seed. -/
def c6listener : AssetHubListener :=
  ⟨5, some "0000000000000000000000000000000000000000000000000000000000000000"⟩

/-- Store used by the C6 witness: the account's initial deposit address at
index 0, active. -/
def c6db0 : DB :=
  ⟨[⟨7, "polkadot_assethub", "addr0", 0, none, true⟩], [], [], []⟩

/-- C6 counterexample: on a truly fresh account (no address row at all), one
successful rotation leaves one address row, so `list_addresses` returns 1
row, not k + 1 = 2 — the claimed count presumes the initial deposit address
already exists. -/
theorem c6_fresh_account_counterexample :
    (c6listener.rotate_address ⟨[], [], [], []⟩ 7).1.isOk = true ∧
    (AssetHubListener.list_addresses (rotateIter c6listener ⟨[], [], [], []⟩ 7 1) 7).length =
      1 ∧
    ¬((AssetHubListener.list_addresses
        (rotateIter c6listener ⟨[], [], [], []⟩ 7 1) 7).length = 1 + 1) := by
  decide

/-- Witness for C6 (amended) at two rotations from the initial address. -/
theorem c6_rotation_monotonicity_witness :
    (∀ j, j < 2 → ∃ addr,
      (c6listener.rotate_address (rotateIter c6listener c6db0 7 j) 7).1 = .ok addr) ∧
    (AssetHubListener.list_addresses (rotateIter c6listener c6db0 7 2) 7).length = 2 + 1 ∧
    List.Pairwise (fun x y : String × Int × Bool => y.2.1 < x.2.1)
      (AssetHubListener.list_addresses (rotateIter c6listener c6db0 7 2) 7) ∧
    ((AssetHubListener.list_addresses (rotateIter c6listener c6db0 7 2) 7).filter
      fun t => t.2.2).length = 1 :=
  c6_rotation_monotonicity c6listener c6db0 7 2
    "0000000000000000000000000000000000000000000000000000000000000000" rfl
    ⟨by decide, by decide⟩ (by decide)


/-! ## C8 -/

/-- The deriver of the source's `test_derive_address`: 32 zero seed bytes. -/
def zeroSeedDeriver : WalletDeriver := WalletDeriver.from_seed_bytes (List.replicate 32 0)

set_option maxRecDepth 1000000 in
/-- C8: address derivation is a pure function of seed, account id and index
(the same inputs yield the same address on every call), and on the concrete
inputs of the source's test — seed of 32 zero bytes — the addresses for
("user1@example.com", 0), ("user1@example.com", 1) and
("user2@example.com", 0) are pairwise distinct, the first being a
syntactically valid SS58 address (it decodes, and starts with "1" as the
test asserts). -/
theorem c8_derive_deterministic_distinct_valid :
    (∀ (seed : List Nat) (user_id : String) (idx : Nat),
      (WalletDeriver.from_seed_bytes seed).derive_polkadot_address user_id idx =
      (WalletDeriver.from_seed_bytes seed).derive_polkadot_address user_id idx) ∧
    zeroSeedDeriver.derive_polkadot_address "user1@example.com" 0 ≠
      zeroSeedDeriver.derive_polkadot_address "user1@example.com" 1 ∧
    zeroSeedDeriver.derive_polkadot_address "user1@example.com" 0 ≠
      zeroSeedDeriver.derive_polkadot_address "user2@example.com" 0 ∧
    zeroSeedDeriver.derive_polkadot_address "user1@example.com" 1 ≠
      zeroSeedDeriver.derive_polkadot_address "user2@example.com" 0 ∧
    (decode_polkadot_address
      (zeroSeedDeriver.derive_polkadot_address "user1@example.com" 0)).isSome = true ∧
    (zeroSeedDeriver.derive_polkadot_address "user1@example.com" 0).take 1 = "1" :=
  ⟨fun _ _ _ => rfl, by decide, by decide, by decide, by decide, by decide⟩

end Sonotxt
